import Mathlib

/-!
# Verification of the UIO socket experiment

Shallow embedding of the packet framing, the stream channel write path,
the epoll event translation, the seqpacket receive path, the descriptor
flag setup and the server connection table of the repository, together
with theorems settling the specification claims.

Conventions:
* bytes are `Fin 256` (Rust `u8`);
* file descriptors are plain naturals (their numeric identity — ownership
  is irrelevant to the properties proved here);
* Rust panics (slice index out of range, `expect`, `panic!`,
  `unimplemented!`, failed `assert!`) are modelled as `Except.error`
  carrying the panic message; normal returns as `Except.ok`;
* syscalls are modelled by their arguments and by oracle parameters
  describing what the kernel reports back.
-/

deriving instance DecidableEq for Except

namespace UIO

/-- A byte, as stored in Rust's `Vec<u8>`. -/
abbrev Byte := Fin 256

/-- `Packet` from libuio/src/socket.rs: payload bytes plus file descriptors. -/
structure Packet where
  data : List Byte
  fds : List Nat
deriving DecidableEq, Repr

/-- `PartialPacket` from libuio/src/socket.rs: bytes and descriptors read
from the socket but not yet sorted into complete packets. -/
structure PartialPacket where
  data : List Byte
  fds : List Nat
deriving DecidableEq, Repr

/-- `PACKET_HEADER_LEN` from libuio/src/socket.rs. -/
def PACKET_HEADER_LEN : Nat := 4

/-- `u16::from_le_bytes([b0, b1])`. -/
def u16FromLeBytes (b0 b1 : Byte) : Nat := b0.val + 256 * b1.val

/-- `u16::to_le_bytes` of a value already known to fit `u16`. -/
def u16ToLeBytes (n : Nat) : List Byte :=
  [⟨n % 256, by omega⟩, ⟨n / 256 % 256, by omega⟩]

/-- `PartialPacket::try_drain_packet` (libuio/src/socket.rs lines 37-62).

The Rust code checks `self.data.len() < packet_length` (not
`PACKET_HEADER_LEN + packet_length`) before slicing
`self.data[PACKET_HEADER_LEN .. PACKET_HEADER_LEN + packet_length]`;
when the buffer holds at least `packet_length` but fewer than
`PACKET_HEADER_LEN + packet_length` bytes, that slice's end index is out
of range and the Rust program panics, modelled as `Except.error`. -/
def PartialPacket.try_drain_packet (s : PartialPacket) :
    Except String (Option (Packet × PartialPacket)) :=
  if s.data.length < PACKET_HEADER_LEN then
    .ok none
  else
    let packetLength : Nat := u16FromLeBytes (s.data.getD 0 0) (s.data.getD 1 0)
    if s.data.length < packetLength then
      .ok none
    else
      let numFds : Nat := u16FromLeBytes (s.data.getD 2 0) (s.data.getD 3 0)
      if s.fds.length < numFds then
        .ok none
      else if PACKET_HEADER_LEN + packetLength ≤ s.data.length then
        let packetBytes := (s.data.drop PACKET_HEADER_LEN).take packetLength
        let remainingBytes := s.data.drop (PACKET_HEADER_LEN + packetLength)
        let packetFds := s.fds.take numFds
        let remainingFds := s.fds.drop numFds
        .ok (some (⟨packetBytes, packetFds⟩, ⟨remainingBytes, remainingFds⟩))
      else
        .error "range end index out of range"

/-- `PartialPacket::drain_packets` (libuio/src/socket.rs lines 65-71):
`while let Some(packet) = self.try_drain_packet() { result.push(packet) }`.
A panic inside `try_drain_packet` propagates out of the loop. -/
def PartialPacket.drain_packets (s : PartialPacket) :
    Except String (List Packet × PartialPacket) :=
  match h : s.try_drain_packet with
  | .error e => .error e
  | .ok none => .ok ([], s)
  | .ok (some t) =>
    match t.2.drain_packets with
    | .error e => .error e
    | .ok (ps, s'') => .ok (t.1 :: ps, s'')
termination_by s.data.length
decreasing_by
  unfold PartialPacket.try_drain_packet at h
  simp only [] at h
  split at h
  · simp at h
  · split at h
    · simp at h
    · split at h
      · simp at h
      · split at h
        · simp only [Except.ok.injEq, Option.some.injEq] at h
          subst h
          simp only [List.length_drop, PACKET_HEADER_LEN] at *
          omega
        · simp at h

/-- One receive step of `StreamChannel::read_packets`
(libuio/src/socket.rs lines 174-237), after the syscall: the received
bytes are appended to the pending byte buffer, the received `SCM_RIGHTS`
descriptors to the pending descriptor list, and then the buffer is
drained.  Iterating this over a list of receives models an arbitrary
chunking of the underlying byte stream.  Returns the packets produced by
all steps together with the final buffer state; a panic during draining
propagates. -/
def feed_chunks (s : PartialPacket) :
    List (List Byte × List Nat) → Except String (List Packet × PartialPacket)
  | [] => .ok ([], s)
  | (bytes, fds) :: rest =>
    match PartialPacket.drain_packets ⟨s.data ++ bytes, s.fds ++ fds⟩ with
    | .error e => .error e
    | .ok (ps, s') =>
      match feed_chunks s' rest with
      | .error e => .error e
      | .ok (ps', s'') => .ok (ps ++ ps', s'')

/-- `CMSG_ALIGN` on Linux x86-64: round up to a multiple of `sizeof(size_t) = 8`. -/
def cmsgAlign (n : Nat) : Nat := (n + 7) / 8 * 8

/-- `CMSG_SPACE(len)`: aligned payload plus aligned `sizeof(cmsghdr) = 16`. -/
def cmsgSpace (len : Nat) : Nat := cmsgAlign len + cmsgAlign 16

/-- Space taken by an `SCM_RIGHTS` control message holding `nfds`
4-byte descriptors: `cmsg_space!(ScmRights(nfds))`. -/
def scmRightsSpace (nfds : Nat) : Nat := cmsgSpace (4 * nfds)

/-- The control buffer of `StreamChannel::write_packet` and
`StreamChannel::read_packets`: `[0; rustix::cmsg_space!(ScmRights(32))]`. -/
def controlSpaceLen : Nat := scmRightsSpace 32

/-- `SendAncillaryBuffer::push(SendAncillaryMessage::ScmRights(..))`
succeeds exactly when the control message fits the buffer. -/
def pushScmRights (nfds : Nat) : Bool := scmRightsSpace nfds ≤ controlSpaceLen

/-- The header+payload bytes built by `StreamChannel::write_packet`
(libuio/src/socket.rs lines 240-244): `u16` little-endian payload length
(`.expect("Packet is too big!")` when it does not fit), `u16`
little-endian descriptor count (`.expect("Packet has too many file
descriptors!")`), then the payload. -/
def encode_packet (p : Packet) : Except String (List Byte) :=
  if p.data.length ≤ 65535 then
    if p.fds.length ≤ 65535 then
      .ok (u16ToLeBytes p.data.length ++ u16ToLeBytes p.fds.length ++ p.data)
    else .error "Packet has too many file descriptors!"
  else .error "Packet is too big!"

/-- Outcome of one `write_packet` call: the byte strings passed to
`sendmsg`, in order, and the overall result. -/
structure WriteOutcome where
  sends : List (List Byte)
  result : Except String Unit
deriving DecidableEq, Repr

/-- `StreamChannel::write_packet` (libuio/src/socket.rs lines 239-272).
`sendmsg` is an oracle giving the number of bytes the kernel reports as
sent for the transmitted byte string.  The code builds the header
(panicking when a length does not fit `u16`), pushes the descriptors
into the ancillary buffer (`panic!("Failed to send file descriptors.")`
when the push fails), performs exactly one `sendmsg`, and panics when
that single call sent fewer bytes than the whole encoded frame. -/
def StreamChannel.write_packet (p : Packet) (sendmsg : List Byte → Nat) : WriteOutcome :=
  match encode_packet p with
  | .error e => ⟨[], .error e⟩
  | .ok data_with_header =>
    if pushScmRights p.fds.length then
      let num_sent_bytes := sendmsg data_with_header
      if num_sent_bytes = data_with_header.length then
        ⟨[data_with_header], .ok ()⟩
      else
        ⟨[data_with_header], .error "Failed to transmit a packet within a single syscall!"⟩
    else
      ⟨[], .error "Failed to send file descriptors."⟩

/-! ## Epoll (uio-server/src/epoll.rs) -/

/-- `libc::EPOLLIN`. -/
def EPOLLIN : Nat := 1
/-- `libc::EPOLLERR`. -/
def EPOLLERR : Nat := 8
/-- `libc::EPOLLHUP`. -/
def EPOLLHUP : Nat := 16

/-- `Message<K>` from uio-server/src/epoll.rs: per its own comments,
`Ready` represents an `EPOLLIN` message, `Broken` an `EPOLLERR` message,
and `Hup` an `EPOLLHUP` message that is not simultaneously `EPOLLERR`. -/
inductive EpollMessage (K : Type) where
  | Ready (key : K)
  | Broken (key : K)
  | Hup (key : K)
deriving DecidableEq, Repr

/-- The body of the event loop in `Epoll::poll` (uio-server/src/epoll.rs
lines 99-110) for one kernel event, as written: each of the three
`if ... { push; continue; }` tests `flags & libc::EPOLLIN != 0`. -/
def Epoll.translate_event {K : Type} (flags : Nat) (key : K) : List (EpollMessage K) :=
  if flags &&& EPOLLIN ≠ 0 then [.Ready key]
  else if flags &&& EPOLLIN ≠ 0 then [.Broken key]
  else if flags &&& EPOLLIN ≠ 0 then [.Hup key]
  else []

/-- `Epoll::poll` over the kernel-reported event list (pairs of event
flag mask and already-converted key). -/
def Epoll.poll {K : Type} (events : List (Nat × K)) : List (EpollMessage K) :=
  events.flatMap fun e => Epoll.translate_event e.1 e.2

/-! ## Seqpacket receive path (uio-server/src/socket.rs) -/

/-- `libc::MSG_TRUNC`. -/
def MSG_TRUNC : Nat := 32
/-- `libc::MSG_CTRUNC`. -/
def MSG_CTRUNC : Nat := 8
/-- `libc::MSG_ERRQUEUE`. -/
def MSG_ERRQUEUE : Nat := 8192
/-- `libc::MSG_EOR`. -/
def MSG_EOR : Nat := 128

/-- What one `recvmsg` call reports back to `SeqPacketChannel::read_packet`:
the return value (`res`, byte count or negative error), the `msg_flags`,
and the received bytes. -/
structure RecvOutcome where
  res : Int
  msg_flags : Nat
  bytes : List Byte
deriving DecidableEq, Repr

/-- `SeqPacketChannel::read_packet` (uio-server/src/socket.rs lines
104-154) applied to one kernel receive: negative return becomes an I/O
error, zero a connection-reset error, the three flag checks panic, the
`MSG_EOR` check has an empty body, and the function then unconditionally
hits `unimplemented!()`.  The received bytes are never appended to the
channel's `read_buffer` and no `Packet` is ever returned. -/
def SeqPacketChannel.read_packet (r : RecvOutcome) : Except String Packet :=
  if r.res < 0 then .error "os error"
  else if r.res = 0 then .error "The peer has performed an orderly shutdown."
  else if r.msg_flags &&& MSG_TRUNC > 0 then .error "Part of a message was truncated!"
  else if r.msg_flags &&& MSG_CTRUNC > 0 then .error "Part of control data was discarded!"
  else if r.msg_flags &&& MSG_ERRQUEUE > 0 then .error "Received error message through socket!"
  else .error "not implemented"

/-! ## Descriptor flags at creation (fs_utils.rs, socket.rs both crates) -/

/-- `libc::FD_CLOEXEC`: the close-on-exec file descriptor flag set via
`fcntl(F_SETFD, ..)`. -/
def FD_CLOEXEC : Nat := 1
/-- `libc::O_CLOEXEC` (Linux): an `open(2)` flag, value `0o2000000`. -/
def O_CLOEXEC : Nat := 524288
/-- `libc::O_NONBLOCK` (Linux): value `0o4000`. -/
def O_NONBLOCK : Nat := 2048
/-- `libc::SOCK_NONBLOCK` = `O_NONBLOCK`. -/
def SOCK_NONBLOCK : Nat := 2048
/-- `libc::SOCK_CLOEXEC` = `O_CLOEXEC`. -/
def SOCK_CLOEXEC : Nat := 524288

/-- The two descriptor properties the spec requires of every created
descriptor. -/
structure FdState where
  cloexec : Bool
  nonblock : Bool
deriving DecidableEq, Repr

/-- A freshly created descriptor (no flags set). -/
def newFd : FdState := ⟨false, false⟩

/-- `fcntl(fd, F_SETFD, arg)`: replaces the descriptor flags; close-on-exec
is set exactly when the `FD_CLOEXEC` bit of `arg` is set. -/
def fcntl_setfd (s : FdState) (arg : Nat) : FdState :=
  { s with cloexec := arg &&& FD_CLOEXEC ≠ 0 }

/-- `fcntl(fd, F_SETFL, arg)`: replaces the status flags; non-blocking is
set exactly when the `O_NONBLOCK` bit of `arg` is set. -/
def fcntl_setfl (s : FdState) (arg : Nat) : FdState :=
  { s with nonblock := arg &&& O_NONBLOCK ≠ 0 }

/-- `set_cloexec` (uio-server/src/fs_utils.rs lines 28-34), as written:
`libc::fcntl(fd.as_raw_fd(), libc::F_SETFD, libc::O_CLOEXEC)`. -/
def set_cloexec (s : FdState) : FdState := fcntl_setfd s O_CLOEXEC

/-- An `accept4`/`accept_with`/`socket`-style creation that passes
`SOCK_*` flags directly at creation time. -/
def socketFlagsAtCreation (flags : Nat) : FdState :=
  ⟨flags &&& SOCK_CLOEXEC ≠ 0, flags &&& SOCK_NONBLOCK ≠ 0⟩

/-- Flags of the stream listening socket created by `StreamSocket::open`
(libuio/src/socket.rs lines 121-140): `fcntl_setfd(FdFlags::CLOEXEC)`
then `fcntl_setfl(OFlags::NONBLOCK)`; rustix's `FdFlags::CLOEXEC` is
`FD_CLOEXEC` and `OFlags::NONBLOCK` is `O_NONBLOCK`. -/
def StreamSocket.open_flags : FdState :=
  fcntl_setfl (fcntl_setfd newFd FD_CLOEXEC) O_NONBLOCK

/-- Flags of a connection accepted by `StreamSocket::accept`
(libuio/src/socket.rs line 144): `accept_with(.., SocketFlags::NONBLOCK |
SocketFlags::CLOEXEC)`. -/
def StreamSocket.accept_flags : FdState :=
  socketFlagsAtCreation (SOCK_NONBLOCK ||| SOCK_CLOEXEC)

/-- Flags of the client-side socket created by `StreamChannel::open`
(libuio/src/socket.rs lines 157-172): same two `fcntl` calls as
`StreamSocket::open`. -/
def StreamChannel.open_flags : FdState :=
  fcntl_setfl (fcntl_setfd newFd FD_CLOEXEC) O_NONBLOCK

/-- Flags of the seqpacket listening socket created by
`SeqPacketSocket::open` (uio-server/src/socket.rs lines 53-55):
`set_cloexec(..)` then `fcntl(.., F_SETFL, O_NONBLOCK)`. -/
def SeqPacketSocket.open_flags : FdState :=
  fcntl_setfl (set_cloexec newFd) O_NONBLOCK

/-- Flags of a connection accepted by `SeqPacketSocket::accept`
(uio-server/src/socket.rs lines 88-92): `accept4(.., SOCK_NONBLOCK |
SOCK_CLOEXEC)`. -/
def SeqPacketSocket.accept_flags : FdState :=
  socketFlagsAtCreation (SOCK_NONBLOCK ||| SOCK_CLOEXEC)

/-! ## Server connection table (uio-server/src/main.rs) -/

/-- The accept/close events that mutate the client table in the event
loop of `main` (uio-server/src/main.rs lines 56-93).  `accept fd` is a
`Ready(PollId::Socket)` event for which the kernel returned descriptor
`fd`; `close fd` is a `Broken`/`Hup` event for client key `fd`. -/
inductive ConnEvent where
  | accept (fd : Nat)
  | close (fd : Nat)
deriving DecidableEq, Repr

/-- One step of the event loop on the client table, modelled as the list
of live descriptor keys.  On accept, the code inserts the new client
under its descriptor and asserts that no previous client used that
descriptor (`assert!(old_client_using_fd.is_none())`, lines 73-80); a
failed assertion is a panic.  On `Broken`/`Hup` it removes the entry,
ignoring missing entries (`let Some(client) = clients.remove(..) else
continue`). -/
def step_table (s : List Nat) : ConnEvent → Except String (List Nat)
  | .accept fd =>
    if fd ∈ s then .error "assertion failed: old_client_using_fd.is_none()"
    else .ok (fd :: s)
  | .close fd => .ok (s.erase fd)

/-- The event loop folded over a sequence of accept/close events,
stopping at the first panic. -/
def run_events (s : List Nat) : List ConnEvent → Except String (List Nat)
  | [] => .ok s
  | e :: rest =>
    match step_table s e with
    | .error msg => .error msg
    | .ok s' => run_events s' rest

/-- The kernel-behaviour assumption: `accept` never returns a descriptor
number that is still owned by a live table entry (descriptor numbers are
not reused while an owning handle is held).  Stated relative to the
current live set and checked along the whole event sequence. -/
def fresh_accepts (s : List Nat) : List ConnEvent → Bool
  | [] => true
  | .accept fd :: rest => fd ∉ s && fresh_accepts (fd :: s) rest
  | .close fd :: rest => fresh_accepts (s.erase fd) rest

/-! ## Helper lemmas -/

/-- A successful drain step removes the header and the payload, hence at
least `PACKET_HEADER_LEN` bytes, from the pending byte buffer. -/
theorem try_drain_packet_shrinks (s : PartialPacket) (t : Packet × PartialPacket)
    (h : s.try_drain_packet = .ok (some t)) :
    t.2.data.length + PACKET_HEADER_LEN ≤ s.data.length := by
  unfold PartialPacket.try_drain_packet at h
  simp only [] at h
  split at h
  · simp at h
  · split at h
    · simp at h
    · split at h
      · simp at h
      · split at h
        · simp only [Except.ok.injEq, Option.some.injEq] at h
          subst h
          simp only [List.length_drop, PACKET_HEADER_LEN] at *
          omega
        · simp at h

/-- A panic in the first drain step propagates out of `drain_packets`. -/
theorem drain_packets_of_error (s : PartialPacket) (e : String)
    (h : s.try_drain_packet = .error e) : s.drain_packets = .error e := by
  rw [PartialPacket.drain_packets]
  split <;> simp_all

/-- The ancillary buffer sized by `cmsg_space!(ScmRights(32))` accepts an
`ScmRights` message exactly when it carries at most 32 descriptors. -/
theorem pushScmRights_le (n : Nat) : pushScmRights n = true ↔ n ≤ 32 := by
  simp only [pushScmRights, scmRightsSpace, cmsgSpace, cmsgAlign, controlSpaceLen,
    decide_eq_true_eq]
  omega

/-- Evaluation of `write_packet` when the encoder and the ancillary push
both succeed: exactly one send of the whole frame, and the result is
determined by whether that send transmitted every byte. -/
theorem write_packet_eval (p : Packet) (sendmsg : List Byte → Nat) (wire : List Byte)
    (hw : encode_packet p = .ok wire) (hpush : pushScmRights p.fds.length = true) :
    StreamChannel.write_packet p sendmsg =
      ⟨[wire], if sendmsg wire = wire.length then .ok ()
               else .error "Failed to transmit a packet within a single syscall!"⟩ := by
  unfold StreamChannel.write_packet
  split
  · rename_i e heq
    rw [hw] at heq
    simp at heq
  · rename_i w heq
    rw [hw] at heq
    simp only [Except.ok.injEq] at heq
    subst heq
    rw [if_pos hpush]
    dsimp only
    split <;> rename_i h <;> simp [h]

/-- Each packet produced by a successful `drain_packets` run consumed at
least its 4 header bytes from the buffer. -/
theorem drain_packets_mul (n : Nat) :
    ∀ (s : PartialPacket) (ps : List Packet) (s' : PartialPacket),
      s.data.length ≤ n → s.drain_packets = .ok (ps, s') →
      4 * ps.length + s'.data.length ≤ s.data.length := by
  induction n with
  | zero =>
    intro s ps s' hlen hh
    rw [PartialPacket.drain_packets] at hh
    split at hh
    · simp at hh
    · simp only [Except.ok.injEq, Prod.mk.injEq] at hh
      obtain ⟨h1, h2⟩ := hh
      subst h1; subst h2
      simp
    · rename_i t htd
      have := try_drain_packet_shrinks s t htd
      simp [PACKET_HEADER_LEN] at this
      omega
  | succ n ih =>
    intro s ps s' hlen hh
    rw [PartialPacket.drain_packets] at hh
    split at hh
    · simp at hh
    · simp only [Except.ok.injEq, Prod.mk.injEq] at hh
      obtain ⟨h1, h2⟩ := hh
      subst h1; subst h2
      simp
    · rename_i t htd
      split at hh
      · simp at hh
      · rename_i ps1 s1 hdrain
        have hshrink := try_drain_packet_shrinks s t htd
        have hrec := ih t.2 ps1 s1 (by simp [PACKET_HEADER_LEN] at hshrink; omega) hdrain
        simp only [Except.ok.injEq, Prod.mk.injEq] at hh
        obtain ⟨h1, h2⟩ := hh
        subst h1; subst h2
        simp only [List.length_cons, PACKET_HEADER_LEN] at *
        omega

/-! ## Claims -/

/-- C1: the claim says a drain step produces a frame only when the buffer
holds the 4-byte header, header+L bytes and C descriptors, and otherwise
returns no packet leaving the pending bytes and descriptors unchanged.
The code checks `data.len() < L` instead of `data.len() < 4 + L`: on a
buffer of 12 bytes whose header declares a 10-byte payload the guard
passes and the slice `data[4 .. 14]` panics instead of returning `None`
with the buffer unchanged. -/
theorem try_drain_packet_panics_on_short_payload :
    PartialPacket.try_drain_packet ⟨[10, 0, 0, 0, 1, 2, 3, 4, 5, 6, 7, 8], []⟩ =
      .error "range end index out of range" ∧
    PartialPacket.try_drain_packet ⟨[10, 0, 0, 0, 1, 2, 3, 4, 5, 6, 7, 8], []⟩ ≠
      .ok none := by
  decide

/-- C2: the claim says encode-then-drain reproduces the packet under any
chunking of the byte stream.  For a 10-byte payload (14 wire bytes) fed
as a 12-byte chunk followed by a 2-byte chunk, the drain after the first
chunk panics on the out-of-range slice, so the round trip does not
succeed for this chunking. -/
theorem stream_roundtrip_panics_on_chunking :
    encode_packet ⟨[1, 2, 3, 4, 5, 6, 7, 8, 9, 10], []⟩ =
      .ok [10, 0, 0, 0, 1, 2, 3, 4, 5, 6, 7, 8, 9, 10] ∧
    feed_chunks ⟨[], []⟩ [([10, 0, 0, 0, 1, 2, 3, 4, 5, 6, 7, 8], []), ([9, 10], [])] =
      .error "range end index out of range" := by
  constructor
  · decide
  · have h1 : PartialPacket.try_drain_packet ⟨[10, 0, 0, 0, 1, 2, 3, 4, 5, 6, 7, 8], []⟩ =
        .error "range end index out of range" := by decide
    simp only [feed_chunks, List.nil_append]
    rw [drain_packets_of_error _ _ h1]

/-- C3: the claim says an `EPOLLERR`-flagged event yields `Broken(key)`,
an `EPOLLHUP`-without-`EPOLLERR` event yields `Hup(key)`, and several
simultaneous conditions are each surfaced.  All three branches of the
translation loop test `EPOLLIN`, so an error-only or hup-only event
yields nothing at all, and an event with input and error set yields only
`Ready(key)`. -/
theorem epoll_poll_drops_broken_and_hup :
    Epoll.translate_event EPOLLERR (0 : Nat) = [] ∧
    Epoll.translate_event EPOLLHUP (0 : Nat) = [] ∧
    Epoll.translate_event (EPOLLIN ||| EPOLLERR) (0 : Nat) = [.Ready 0] ∧
    Epoll.poll [(EPOLLERR, (0 : Nat))] = [] := by
  decide

/-- C4: the claim says `read_packet` accumulates received bytes and
descriptors and returns a completed `Packet` exactly when a receive
carries `MSG_EOR`.  The code's `MSG_EOR` check has an empty body and the
function unconditionally reaches `unimplemented!()`: even a receive that
carries the end-of-record flag produces a panic, never a packet. -/
theorem seqpacket_read_packet_unimplemented :
    SeqPacketChannel.read_packet ⟨5, MSG_EOR, [1, 2, 3, 4, 5]⟩ =
      .error "not implemented" := by
  decide

/-- C5: the claim says every descriptor created by the system is set
non-blocking and close-on-exec at creation.  `set_cloexec` calls
`fcntl(fd, F_SETFD, O_CLOEXEC)`; `O_CLOEXEC` (an `open(2)` flag,
`0o2000000`) does not contain the `FD_CLOEXEC` bit (`1`), so the
seqpacket listening socket created by `SeqPacketSocket::open` is left
without close-on-exec, while the four other creation sites do request
both flags. -/
theorem seqpacket_listener_not_cloexec :
    SeqPacketSocket.open_flags.cloexec = false ∧
    SeqPacketSocket.open_flags.nonblock = true ∧
    StreamSocket.open_flags = ⟨true, true⟩ ∧
    StreamSocket.accept_flags = ⟨true, true⟩ ∧
    StreamChannel.open_flags = ⟨true, true⟩ ∧
    SeqPacketSocket.accept_flags = ⟨true, true⟩ := by
  decide

/-- C6: a packet whose payload exceeds 65535 bytes makes `write_packet`
fail before any send (the `u16` conversion panics), and whenever the
encoder succeeds, the header's length field decodes to the exact payload
length — never a silently truncated value. -/
theorem write_packet_never_truncates_length (p : Packet) (sendmsg : List Byte → Nat) :
    (65535 < p.data.length →
      (StreamChannel.write_packet p sendmsg).result = .error "Packet is too big!" ∧
      (StreamChannel.write_packet p sendmsg).sends = []) ∧
    (∀ wire, encode_packet p = .ok wire →
      u16FromLeBytes (wire.getD 0 0) (wire.getD 1 0) = p.data.length) := by
  constructor
  · intro hbig
    have hnot : ¬ p.data.length ≤ 65535 := by omega
    simp [StreamChannel.write_packet, encode_packet, hnot]
  · intro wire hw
    unfold encode_packet at hw
    split at hw
    · split at hw
      · simp only [Except.ok.injEq] at hw
        subst hw
        simp only [u16ToLeBytes, List.cons_append, List.nil_append,
          List.getD_cons_zero, List.getD_cons_succ, u16FromLeBytes]
        omega
      · simp at hw
    · simp at hw

/-- Witness for C6 at a 65536-byte payload and at a 1-byte payload. -/
theorem write_packet_never_truncates_length_witness :
    (StreamChannel.write_packet ⟨List.replicate 65536 0, []⟩ (fun w => w.length)).result =
      .error "Packet is too big!" ∧
    u16FromLeBytes (([(1 : Byte), 0, 0, 0, 5].getD 0 0)) ([(1 : Byte), 0, 0, 0, 5].getD 1 0) =
      (Packet.mk [5] []).data.length := by
  constructor
  · exact ((write_packet_never_truncates_length ⟨List.replicate 65536 0, []⟩
      (fun w => w.length)).1 (by simp only [List.length_replicate]; omega)).1
  · exact (write_packet_never_truncates_length ⟨[5], []⟩
      (fun w => w.length)).2 [1, 0, 0, 0, 5] (by decide)

/-- C7: `write_packet` performs at most one send ever, exactly one send
(of the whole encoded frame) whenever encoding and the descriptor push
succeed, and when that single send reports fewer bytes than the encoded
frame it fails with the partial-transmission panic instead of retrying
with the remainder. -/
theorem write_packet_single_send_no_retry (p : Packet) (sendmsg : List Byte → Nat) :
    (StreamChannel.write_packet p sendmsg).sends.length ≤ 1 ∧
    (∀ wire, encode_packet p = .ok wire → p.fds.length ≤ 32 →
      (StreamChannel.write_packet p sendmsg).sends = [wire] ∧
      (sendmsg wire < wire.length →
        (StreamChannel.write_packet p sendmsg).result =
          .error "Failed to transmit a packet within a single syscall!")) := by
  constructor
  · unfold StreamChannel.write_packet
    split
    · simp
    · split
      · dsimp only
        split <;> simp
      · simp
  · intro wire hw hfds
    have hpush : pushScmRights p.fds.length = true := (pushScmRights_le _).mpr hfds
    rw [write_packet_eval p sendmsg wire hw hpush]
    refine ⟨rfl, fun hlt => ?_⟩
    have hne : ¬ sendmsg wire = wire.length := by omega
    simp [hne]

/-- Witness for C7: a 1-byte, 1-descriptor packet whose send reports 0
bytes transmitted. -/
theorem write_packet_single_send_no_retry_witness :
    (StreamChannel.write_packet ⟨[5], [3]⟩ (fun _ => 0)).sends = [[1, 0, 1, 0, 5]] ∧
    (StreamChannel.write_packet ⟨[5], [3]⟩ (fun _ => 0)).result =
      .error "Failed to transmit a packet within a single syscall!" := by
  have h := write_packet_single_send_no_retry ⟨[5], [3]⟩ (fun _ => 0)
  exact ⟨(h.2 [1, 0, 1, 0, 5] (by decide) (by decide)).1,
    (h.2 [1, 0, 1, 0, 5] (by decide) (by decide)).2 (by decide)⟩

/-- C8: under the assumption that the kernel never hands `accept` a
descriptor number still owned by a live table entry, every accept/close
event sequence runs without the accept path's assertion ever failing,
and every reachable table state holds at most one live entry per
descriptor identity. -/
theorem connection_table_unique_identity (s : List Nat) (evs : List ConnEvent)
    (hs : s.Nodup) (hf : fresh_accepts s evs = true) :
    ∃ s', run_events s evs = .ok s' ∧ s'.Nodup := by
  induction evs generalizing s with
  | nil => exact ⟨s, rfl, hs⟩
  | cons e rest ih =>
    cases e with
    | accept fd =>
      simp only [fresh_accepts, Bool.and_eq_true, decide_eq_true_eq] at hf
      obtain ⟨h1, h2⟩ := hf
      simp only [run_events, step_table, if_neg h1]
      exact ih (fd :: s) (by simp [List.nodup_cons, h1, hs]) h2
    | close fd =>
      simp only [fresh_accepts] at hf
      simp only [run_events, step_table]
      exact ih (s.erase fd) (hs.erase fd) hf

/-- Witness for C8: accept 5, accept 6, close 5, then accept the reused
descriptor 5 again. -/
theorem connection_table_unique_identity_witness :
    ∃ s', run_events []
      [ConnEvent.accept 5, ConnEvent.accept 6, ConnEvent.close 5, ConnEvent.accept 5] =
        .ok s' ∧ s'.Nodup :=
  connection_table_unique_identity [] _ (by decide) (by decide)

/-- C9: each successful drain step removes at least the 4 header bytes
from the pending byte buffer, and therefore a successful `drain_packets`
run produces at most `⌊len / 4⌋` packets; the loop terminates on every
initial buffer state (the recursion is well-founded on the buffer
length). -/
theorem drain_packets_terminates (s : PartialPacket) :
    (∀ t, s.try_drain_packet = .ok (some t) →
      t.2.data.length + 4 ≤ s.data.length) ∧
    (∀ (ps : List Packet) (s' : PartialPacket), s.drain_packets = .ok (ps, s') →
      ps.length ≤ s.data.length / 4) := by
  constructor
  · intro t ht
    have := try_drain_packet_shrinks s t ht
    simpa [PACKET_HEADER_LEN] using this
  · intro ps s' h
    have := drain_packets_mul s.data.length s ps s' le_rfl h
    omega

/-- Witness for C9: a buffer holding two empty frames yields two packets,
within the bound `8 / 4`. -/
theorem drain_packets_terminates_witness :
    (0 : Nat) + 4 ≤ ([0, 0, 0, 0] : List Byte).length ∧
    ([⟨[], []⟩, ⟨[], []⟩] : List Packet).length ≤ ([(0 : Byte), 0, 0, 0, 0, 0, 0, 0] : List Byte).length / 4 := by
  constructor
  · have h := (drain_packets_terminates ⟨[0, 0, 0, 0], []⟩).1
      (⟨[], []⟩, ⟨[], []⟩) (by decide)
    simpa using h
  · exact (drain_packets_terminates ⟨[0, 0, 0, 0, 0, 0, 0, 0], []⟩).2
      [⟨[], []⟩, ⟨[], []⟩] ⟨[], []⟩
      (by simp [PartialPacket.drain_packets, PartialPacket.try_drain_packet,
        u16FromLeBytes, PACKET_HEADER_LEN])

/-- C10: the ancillary buffer is sized for exactly 32 rights, so pushing
the rights of a packet with more than 32 descriptors fails and the panic
branch is taken even though the wire header's `u16` capability count
admits up to 65535; with at most 32 descriptors that branch is
unreachable. -/
theorem ancillary_buffer_capacity (p : Packet) (sendmsg : List Byte → Nat) :
    (pushScmRights p.fds.length = true ↔ p.fds.length ≤ 32) ∧
    (p.data.length ≤ 65535 → 32 < p.fds.length → p.fds.length ≤ 65535 →
      (∃ wire, encode_packet p = .ok wire) ∧
      (StreamChannel.write_packet p sendmsg).result = .error "Failed to send file descriptors.") ∧
    (p.fds.length ≤ 32 →
      (StreamChannel.write_packet p sendmsg).result ≠ .error "Failed to send file descriptors.") := by
  refine ⟨pushScmRights_le _, ?_, ?_⟩
  · intro hdata hlo hhi
    have henc : encode_packet p =
        .ok (u16ToLeBytes p.data.length ++ u16ToLeBytes p.fds.length ++ p.data) := by
      simp [encode_packet, hdata, hhi]
    have hpush : ¬ pushScmRights p.fds.length = true := by
      simp only [pushScmRights_le]
      omega
    refine ⟨⟨_, henc⟩, ?_⟩
    unfold StreamChannel.write_packet
    rw [henc]
    dsimp only
    rw [if_neg (by simp [Bool.not_eq_true] at hpush; simp [hpush])]
  · intro hfds
    have hpush : pushScmRights p.fds.length = true := (pushScmRights_le _).mpr hfds
    cases henc : encode_packet p with
    | error e =>
      have hval : StreamChannel.write_packet p sendmsg = ⟨[], .error e⟩ := by
        unfold StreamChannel.write_packet
        rw [henc]
      rw [hval]
      unfold encode_packet at henc
      split at henc
      · split at henc
        · simp at henc
        · simp only [Except.error.injEq] at henc
          subst henc
          simp
      · simp only [Except.error.injEq] at henc
        subst henc
        simp
    | ok wire =>
      rw [write_packet_eval p sendmsg wire henc hpush]
      split <;> simp

/-- Witness for C10: a packet with 33 descriptors takes the panic branch;
a packet with no descriptors does not. -/
theorem ancillary_buffer_capacity_witness :
    (StreamChannel.write_packet ⟨[], List.range 33⟩ (fun _ => 0)).result =
      .error "Failed to send file descriptors." ∧
    (StreamChannel.write_packet ⟨[], []⟩ (fun _ => 0)).result ≠
      .error "Failed to send file descriptors." := by
  constructor
  · exact ((ancillary_buffer_capacity ⟨[], List.range 33⟩ (fun _ => 0)).2.1
      (by decide) (by decide) (by decide)).2
  · exact (ancillary_buffer_capacity ⟨[], []⟩ (fun _ => 0)).2.2 (by decide)

end UIO
